import Mathlib

/-!
Verification of the corotwine coroutine-to-event-loop bridge.

This file shallowly embeds the per-connection state machine of
`corotwine/protocol.py` (`GreenletTransport`, `_GreenletProtocol`), the
Deferred bridge of `corotwine/defer.py` (`blockOn`, `deferredGreenlet`) and
the `LineBuffer` framing layer, and proves the stated behavioural
properties.  The single-threaded cooperative greenlet scheduling is made
explicit: the worker greenlet's suspension point is tracked alongside the
connection fields, and every `greenlet.switch` round trip is modelled as a
transition of one explicit step function.
-/

namespace Corotwine

/-- Disconnection reasons stored in `GreenletTransport._disconnected`
(from `twisted.internet.error`): a clean close (`ConnectionDone`) or an
abnormal loss (`ConnectionLost`). -/
inductive Failure
  | connectionDone
  | connectionLost
deriving DecidableEq, Repr

/-- The non-idle values of `GreenletTransport._state`
(`READING, WRITING = range(2)` in `protocol.py`); the idle value `None`
is modelled as `Option.none`. -/
inductive Phase
  | reading
  | writing
deriving DecidableEq, Repr

/-- Combined per-connection state of a `_GreenletProtocol` and its
`GreenletTransport` (`protocol.py`): `buffer` is `_GreenletProtocol._buffer`,
`state` is `GreenletTransport._state` (`none` = idle), `disconnected` is
`GreenletTransport._disconnected`, `paused` is `GreenletTransport._paused`,
`written` records the successive calls made to the underlying Twisted
transport's `write`, and `loseConnectionCalls` counts the calls made to its
`loseConnection`. -/
structure ConnSt where
  buffer : String
  state : Option Phase
  disconnected : Option Failure
  paused : Bool
  written : List String
  loseConnectionCalls : Nat
deriving DecidableEq, Repr

/-- The state of a freshly connected transport, as set up by
`_GreenletProtocol.connectionMade`. -/
def initConn : ConnSt :=
  { buffer := ""
    state := none
    disconnected := none
    paused := false
    written := []
    loseConnectionCalls := 0 }

/-- How a call to `GreenletTransport.read` leaves the worker greenlet:
it raises the recorded disconnection failure, returns buffered data
immediately, or switches to the reactor greenlet (suspends). -/
inductive ReadStep
  | raises (f : Failure)
  | returns (data : String)
  | suspends
deriving DecidableEq, Repr

/-- `GreenletTransport.read` (protocol.py lines 100-112) up to its
suspension point: raise `_disconnected` if set; otherwise take and clear a
non-empty `_buffer` and return it; otherwise set `_state = READING` and
switch to `MAIN`.  The returned `ConnSt` is the connection state at the
moment the call returns or suspends. -/
def GreenletTransport.read (st : ConnSt) : ReadStep × ConnSt :=
  match st.disconnected with
  | some f => (ReadStep.raises f, st)
  | none =>
    if st.buffer ≠ "" then
      (ReadStep.returns st.buffer, { st with buffer := "" })
    else
      (ReadStep.suspends, { st with state := some Phase.reading })

/-- How a call to `GreenletTransport.write` leaves the worker greenlet:
it raises the recorded disconnection failure, forwards the data to the
underlying transport immediately, or suspends waiting for
`resumeProducing`. -/
inductive WriteStep
  | raises (f : Failure)
  | writes
  | suspends
deriving DecidableEq, Repr

/-- `GreenletTransport.write` (protocol.py lines 115-130) up to its
suspension point: raise `_disconnected` if set; if `_paused`, set
`_state = WRITING` and switch to `MAIN` (the pending `data` stays in the
suspended frame); otherwise forward `data` to the underlying transport's
`write`. -/
def GreenletTransport.write (st : ConnSt) (data : String) : WriteStep × ConnSt :=
  match st.disconnected with
  | some f => (WriteStep.raises f, st)
  | none =>
    if st.paused then
      (WriteStep.suspends, { st with state := some Phase.writing })
    else
      (WriteStep.writes, { st with written := st.written ++ [data] })

/-- `GreenletTransport.close` (protocol.py lines 133-137): unconditionally
call the underlying transport's `loseConnection`.  It is a plain function
on `ConnSt` — it has no raising or suspending outcome. -/
def GreenletTransport.close (st : ConnSt) : ConnSt :=
  { st with loseConnectionCalls := st.loseConnectionCalls + 1 }

/-- `_GreenletProtocol.dataReceived` (protocol.py lines 193-202) together
with the resumption it triggers: append `data` to `_buffer`; if
`_state == READING`, take and clear the whole buffer and switch the worker
greenlet back in with it — the pending `read` then runs `_state = None`
and returns that value (returned here as `some value`); otherwise the data
stays buffered (`none`). -/
def GreenletProtocol.dataReceived (st : ConnSt) (data : String) :
    ConnSt × Option String :=
  let st1 := { st with buffer := st.buffer ++ data }
  if st1.state = some Phase.reading then
    ({ st1 with buffer := "", state := none }, some st1.buffer)
  else
    (st1, none)

/-- `_GreenletProtocol.pauseProducing` (protocol.py lines 165-170): set
the `_paused` backpressure flag. -/
def GreenletProtocol.pauseProducing (st : ConnSt) : ConnSt :=
  { st with paused := true }

/-- `_GreenletProtocol.resumeProducing` (protocol.py lines 173-183)
together with the write resumption it triggers: assert
`_state == WRITING` and `_paused` (modelled as the `none` outcome when the
assertion fails, leaving the connection state untouched); clear `_paused`
and switch the worker back in — the pending `write` then runs
`_state = None` and forwards its pending `data` to the underlying
transport. -/
def GreenletProtocol.resumeProducing (st : ConnSt) (pendingData : String) :
    Option ConnSt :=
  if st.state = some Phase.writing ∧ st.paused then
    some { st with
            paused := false
            state := none
            written := st.written ++ [pendingData] }
  else
    none

/-- `_GreenletProtocol.connectionLost` (protocol.py lines 205-214): record
`reason` in `_disconnected`; if `_state in (READING, WRITING)`, throw the
exception into the suspended worker greenlet (returned `Bool` says whether
the injection happened).  Note that the injected exception propagates out
of `MAIN.switch()` inside `read`/`write`, so the `_state = None` line of
the interrupted call is skipped. -/
def GreenletProtocol.connectionLost (st : ConnSt) (reason : Failure) :
    ConnSt × Bool :=
  let st1 := { st with disconnected := some reason }
  if st1.state = some Phase.reading ∨ st1.state = some Phase.writing then
    (st1, true)
  else
    (st1, false)

/-- Where the worker greenlet currently is: running (or runnable at a call
boundary), suspended inside `read`, suspended inside `write` (holding the
pending data of the interrupted call's frame), suspended outside I/O
(e.g. inside `corotwine.clock.wait`), or finished. -/
inductive Susp
  | running
  | inRead
  | inWrite (data : String)
  | inWait
  | dead
deriving DecidableEq, Repr

/-- Whole-system state for one connection: the connection fields, the
worker greenlet's suspension point, and two histories used to state
stream properties — `reads` the values returned by completed `read`
calls, `delivered` the chunks handed to `dataReceived`. -/
structure M where
  conn : ConnSt
  susp : Susp
  reads : List String
  delivered : List String
deriving DecidableEq, Repr

/-- The system just after `_GreenletProtocol.connectionMade`: fresh
connection state, worker greenlet started and running, no I/O yet. -/
def init : M :=
  { conn := initConn, susp := Susp.running, reads := [], delivered := [] }

/-- One scheduling event of the cooperative machine: a call made by the
worker greenlet (`callRead`, `callWrite`, `callClose`, `callWait`,
`workerDone`), the timer resumption of `wait` (`timerFire`), or a reactor
callback on the protocol (`deliver` = `dataReceived`, `pause` =
`pauseProducing`, `resume` = `resumeProducing`, `connLost` =
`connectionLost`). -/
inductive Ev
  | callRead
  | callWrite (data : String)
  | callClose
  | callWait
  | workerDone
  | timerFire
  | deliver (data : String)
  | pause
  | resume
  | connLost (f : Failure)
deriving DecidableEq, Repr

/-- One step of the cooperative machine.  Worker calls happen only while
the worker is running; reactor callbacks happen only while it is not
(Twisted runs them from the reactor), except `pause`/`resume` which the
transport may also invoke synchronously from inside `transport.write`;
`deliver`, `pause`, `resume` and `connLost` never arrive after
`connectionLost` (Twisted delivers it exactly once, last).  Events whose
scheduling precondition fails leave the state unchanged. -/
def Mstep (m : M) (ev : Ev) : M :=
  match ev with
  | Ev.callRead =>
    if m.susp = Susp.running then
      match GreenletTransport.read m.conn with
      | (ReadStep.raises _, c) => { m with conn := c }
      | (ReadStep.returns buf, c) => { m with conn := c, reads := m.reads ++ [buf] }
      | (ReadStep.suspends, c) => { m with conn := c, susp := Susp.inRead }
    else m
  | Ev.callWrite data =>
    if m.susp = Susp.running then
      match GreenletTransport.write m.conn data with
      | (WriteStep.raises _, c) => { m with conn := c }
      | (WriteStep.writes, c) => { m with conn := c }
      | (WriteStep.suspends, c) => { m with conn := c, susp := Susp.inWrite data }
    else m
  | Ev.callClose =>
    if m.susp = Susp.running then
      { m with conn := GreenletTransport.close m.conn }
    else m
  | Ev.callWait =>
    if m.susp = Susp.running then { m with susp := Susp.inWait } else m
  | Ev.workerDone =>
    if m.susp = Susp.running then { m with susp := Susp.dead } else m
  | Ev.timerFire =>
    if m.susp = Susp.inWait then { m with susp := Susp.running } else m
  | Ev.deliver data =>
    if m.conn.disconnected = none ∧ m.susp ≠ Susp.running then
      match GreenletProtocol.dataReceived m.conn data with
      | (c, some x) =>
        { m with
            conn := c
            susp := Susp.running
            reads := m.reads ++ [x]
            delivered := m.delivered ++ [data] }
      | (c, none) =>
        { m with conn := c, delivered := m.delivered ++ [data] }
    else m
  | Ev.pause =>
    if m.conn.disconnected = none then
      { m with conn := GreenletProtocol.pauseProducing m.conn }
    else m
  | Ev.resume =>
    if m.conn.disconnected = none then
      match m.susp with
      | Susp.inWrite data =>
        match GreenletProtocol.resumeProducing m.conn data with
        | some c => { m with conn := c, susp := Susp.running }
        | none => m
      | _ => m
    else m
  | Ev.connLost f =>
    if m.conn.disconnected = none ∧ m.susp ≠ Susp.running then
      match GreenletProtocol.connectionLost m.conn f with
      | (c, true) => { m with conn := c, susp := Susp.running }
      | (c, false) => { m with conn := c }
    else m

/-- Run the machine over a list of events. -/
def run (m : M) : List Ev → M
  | [] => m
  | ev :: evs => run (Mstep m ev) evs

/-- Concatenation of a list of byte chunks. -/
def concatAll : List String → String
  | [] => ""
  | s :: rest => s ++ concatAll rest

/-- Reachability invariant of the machine: `_state` tells the truth about
the worker's suspension point (and a suspended `write` implies `_paused`),
except that once the connection is lost `_state` may be stale; and the
inbound buffer is empty whenever `_state == READING`. -/
def MInv (m : M) : Prop :=
  (m.susp = Susp.inRead → m.conn.state = some Phase.reading) ∧
  (∀ d, m.susp = Susp.inWrite d →
    m.conn.state = some Phase.writing ∧ m.conn.paused = true) ∧
  (∀ p, m.conn.disconnected = none → m.conn.state = some p →
    (p = Phase.reading → m.susp = Susp.inRead) ∧
    (p = Phase.writing → ∃ d, m.susp = Susp.inWrite d)) ∧
  (m.conn.state = some Phase.reading → m.conn.buffer = "")

/-- The single eventual outcome of a Twisted `Deferred`: a success value
or a failure. -/
inductive Outcome (α : Type) where
  | success (a : α)
  | failure (f : Failure)
deriving DecidableEq, Repr

/-- How a call to `blockOn` leaves the calling greenlet: it returns the
result directly, raises the failure's exception, or switches to `MAIN`
to wait for the Deferred to fire. -/
inductive BlockOnResult (α : Type) where
  | returns (a : α)
  | raises (f : Failure)
  | suspends
deriving DecidableEq, Repr

/-- `true` exactly when the `blockOn` call switched away from the calling
greenlet (the observable context switch of the spec's switch counter). -/
def BlockOnResult.switched : BlockOnResult α → Bool
  | BlockOnResult.suspends => true
  | _ => false

/-- `blockOn` (defer.py lines 19-45), taking the Deferred's state at
registration time (`none` = not yet fired).  `d.addCallbacks` on an
already-fired Deferred runs the callback synchronously in the calling
greenlet, so `cb`/`eb` append the result to the local `synchronous` list;
`blockOn` then returns or raises it without switching.  Otherwise the
`synchronous` list stays empty and `blockOn` runs `MAIN.switch()`. -/
def blockOn (d : Option (Outcome α)) : BlockOnResult α :=
  let synchronous : List (Outcome α) :=
    match d with
    | some r => [r]
    | none => []
  match synchronous with
  | r :: _ =>
    match r with
    | Outcome.failure f => BlockOnResult.raises f
    | Outcome.success a => BlockOnResult.returns a
  | [] => BlockOnResult.suspends

/-- Misuse failures of the entry points: the `assert` in `gConnectTCP`
that rejects calls from the reactor greenlet. -/
inductive Misuse
  | calledFromReactorGreenlet
deriving DecidableEq, Repr

/-- Which greenlet an entry point is invoked from: the reactor's `MAIN`
greenlet (the driver) or an ordinary worker greenlet. -/
inductive Caller
  | driver
  | worker
deriving DecidableEq, Repr

/-- `gConnectTCP` (protocol.py lines 283-299) up to its `blockOn` call:
`assert current is not MAIN` rejects the reactor greenlet; otherwise a
fresh Deferred is created, the connection is started and the call blocks
on the Deferred (whose state at registration time is `d`). -/
def gConnectTCP (caller : Caller) (d : Option (Outcome α)) :
    Except Misuse (BlockOnResult α) :=
  match caller with
  | Caller.driver => Except.error Misuse.calledFromReactorGreenlet
  | Caller.worker => Except.ok (blockOn d)

/-- `blockOn` as an entry point (defer.py lines 19-45): unlike
`gConnectTCP` it performs no check of the calling greenlet, so it
proceeds identically from the reactor greenlet. -/
def blockOnEntry (_caller : Caller) (d : Option (Outcome α)) :
    Except Misuse (BlockOnResult α) :=
  Except.ok (blockOn d)

/-- A run of a blocking-style function wrapped by `deferredGreenlet`: the
function either finishes with a return value or a raised failure
(`done`), or switches away and continues as `k` once resumed
(`suspends`). -/
inductive GComp (β : Type) where
  | done (r : Except Failure β)
  | suspends (k : GComp β)

/-- The value or failure the wrapped function eventually finishes with,
after all its suspensions have been resumed. -/
def finalResult : GComp β → Except Failure β
  | GComp.done r => r
  | GComp.suspends k => finalResult k

/-- Firing of the Deferred by `intermediateGreenletFunction`
(defer.py lines 65-69): `d.callback(result)` on a normal return,
`d.errback()` on a raised error. -/
def outcomeOf : Except Failure β → Outcome β
  | Except.ok b => Outcome.success b
  | Except.error f => Outcome.failure f

/-- The `inner` function built by `deferredGreenlet` (defer.py lines
49-72): create a fresh unfired Deferred, run
`intermediateGreenletFunction` in a fresh greenlet and switch into it;
the wrapped function runs until it first suspends or finishes.  Returns
the Deferred's state at the moment `inner` returns it, together with the
still-suspended remainder of the computation (if any). -/
def deferredGreenlet (g : GComp β) : Option (Outcome β) × Option (GComp β) :=
  match g with
  | GComp.done r => (some (outcomeOf r), none)
  | GComp.suspends k => (none, some k)

/-- Resume the suspended remainder to completion; when the wrapped
function finishes, `intermediateGreenletFunction` fires the Deferred. -/
def resumeToCompletion : GComp β → Option (Outcome β) → Option (Outcome β)
  | GComp.done r, _ => some (outcomeOf r)
  | GComp.suspends k, d => resumeToCompletion k d

/-- The Deferred's state once the wrapped computation has been driven to
completion (immediately at `inner`'s return when it never suspended). -/
def eventualDeferred (g : GComp β) : Option (Outcome β) :=
  match deferredGreenlet g with
  | (d, none) => d
  | (d, some k) => resumeToCompletion k d

/-- Split off the first delimiter-terminated record: `splitFirst delim s =
some (pre, post)` when `s = pre ++ delim ++ post` with `pre` before the
first occurrence of `delim`; `none` when `s` contains no occurrence. -/
def splitFirst (delim : List Char) : List Char → Option (List Char × List Char)
  | [] => none
  | c :: cs =>
    if delim.isPrefixOf (c :: cs) then
      some ([], (c :: cs).drop delim.length)
    else
      match splitFirst delim cs with
      | some (pre, post) => some (c :: pre, post)
      | none => none

/-- Fuelled worker for `splitAll`; the fuel bounds the number of records
split off (the input length always suffices for a non-empty delimiter). -/
def splitAllAux (delim : List Char) : Nat → List Char → List (List Char) × List Char
  | 0, s => ([], s)
  | fuel + 1, s =>
    match splitFirst delim s with
    | some (pre, post) =>
      let (ls, rem) := splitAllAux delim fuel post
      (pre :: ls, rem)
    | none => ([], s)

/-- Split a byte sequence into all complete delimiter-terminated records
(delimiter stripped) and the trailing partial fragment.  This models the
line splitting of `twisted.protocols.basic.LineReceiver.dataReceived`,
which `LineBuffer` configures with `lineReceived = self.lines.append`;
`LineReceiver` itself is a Twisted collaborator outside this repository
(line-length limits are not modelled). -/
def splitAll (delim s : List Char) : List (List Char) × List Char :=
  splitAllAux delim s.length s

/-- `LineBuffer` (protocol.py lines 29-69): the configured delimiter, the
`self.lines` FIFO of complete received lines, and the `LineReceiver`'s
internal buffer of trailing bytes not yet terminated by the delimiter. -/
structure LineBuffer where
  delimiter : List Char
  lines : List (List Char)
  recvBuf : List Char
deriving DecidableEq, Repr

/-- `LineBuffer.__init__` (protocol.py lines 35-48) with the default CRLF
delimiter. -/
def LineBuffer.make (delimiter : List Char := [Char.ofNat 13, Char.ofNat 10]) :
    LineBuffer :=
  { delimiter := delimiter, lines := [], recvBuf := [] }

/-- `self.receiver.dataReceived(data)` as performed inside
`LineBuffer.readLine`: split the accumulated bytes, append every complete
line to `self.lines` and retain the trailing fragment. -/
def LineBuffer.feed (lb : LineBuffer) (data : List Char) : LineBuffer :=
  let (ls, rem) := splitAll lb.delimiter (lb.recvBuf ++ data)
  { lb with lines := lb.lines ++ ls, recvBuf := rem }

/-- `LineBuffer.readLine` (protocol.py lines 56-62): while `self.lines`
is empty, feed the next `transport.read()` result into the receiver; then
pop and return the first buffered line.  The successive values returned
by `transport.read()` are supplied as `chunks`; the call would block
forever if they run out (`none`). -/
def LineBuffer.readLine :
    LineBuffer → List (List Char) → Option (List Char × LineBuffer × List (List Char))
  | ⟨delim, l :: rest, buf⟩, chunks => some (l, ⟨delim, rest, buf⟩, chunks)
  | ⟨_, [], _⟩, [] => none
  | ⟨delim, [], buf⟩, c :: cs =>
    LineBuffer.readLine (LineBuffer.feed ⟨delim, [], buf⟩ c) cs

/-- Perform `n` successive `readLine` calls, collecting their results. -/
def readLines : Nat → LineBuffer → List (List Char) → List (List Char)
  | 0, _, _ => []
  | n + 1, lb, chunks =>
    match lb.readLine chunks with
    | none => []
    | some (l, lb1, chunks1) => l :: readLines n lb1 chunks1

/-- `LineBuffer.writeLine` (protocol.py lines 50-54): write `data`
followed by the delimiter to the transport; `written` is the history of
the transport's `write` calls. -/
def LineBuffer.writeLine (lb : LineBuffer) (written : List (List Char))
    (data : List Char) : List (List Char) :=
  written ++ [data ++ lb.delimiter]

/-- Concatenation of a list of character chunks. -/
def concatChars : List (List Char) → List Char
  | [] => []
  | s :: rest => s ++ concatChars rest

/-! ## Behaviour of the individual operations -/

theorem read_of_disconnected (st : ConnSt) (f : Failure)
    (h : st.disconnected = some f) :
    GreenletTransport.read st = (ReadStep.raises f, st) := by
  simp [GreenletTransport.read, h]

theorem read_of_buffered (st : ConnSt) (h1 : st.disconnected = none)
    (h2 : st.buffer ≠ "") :
    GreenletTransport.read st
      = (ReadStep.returns st.buffer, { st with buffer := "" }) := by
  simp [GreenletTransport.read, h1, h2]

theorem read_of_empty (st : ConnSt) (h1 : st.disconnected = none)
    (h2 : st.buffer = "") :
    GreenletTransport.read st
      = (ReadStep.suspends, { st with state := some Phase.reading }) := by
  simp [GreenletTransport.read, h1, h2]

theorem write_of_disconnected (st : ConnSt) (data : String) (f : Failure)
    (h : st.disconnected = some f) :
    GreenletTransport.write st data = (WriteStep.raises f, st) := by
  simp [GreenletTransport.write, h]

theorem write_of_unpaused (st : ConnSt) (data : String)
    (h1 : st.disconnected = none) (h2 : st.paused = false) :
    GreenletTransport.write st data
      = (WriteStep.writes, { st with written := st.written ++ [data] }) := by
  simp [GreenletTransport.write, h1, h2]

theorem write_of_paused (st : ConnSt) (data : String)
    (h1 : st.disconnected = none) (h2 : st.paused = true) :
    GreenletTransport.write st data
      = (WriteStep.suspends, { st with state := some Phase.writing }) := by
  simp [GreenletTransport.write, h1, h2]

theorem dataReceived_of_reading (st : ConnSt) (data : String)
    (h : st.state = some Phase.reading) :
    GreenletProtocol.dataReceived st data
      = ({ st with buffer := "", state := none }, some (st.buffer ++ data)) := by
  simp [GreenletProtocol.dataReceived, h]

theorem dataReceived_of_notReading (st : ConnSt) (data : String)
    (h : ¬ st.state = some Phase.reading) :
    GreenletProtocol.dataReceived st data
      = ({ st with buffer := st.buffer ++ data }, none) := by
  simp [GreenletProtocol.dataReceived, h]

theorem resumeProducing_of_writing (st : ConnSt) (pendingData : String)
    (h1 : st.state = some Phase.writing) (h2 : st.paused = true) :
    GreenletProtocol.resumeProducing st pendingData
      = some { st with
                paused := false
                state := none
                written := st.written ++ [pendingData] } := by
  simp [GreenletProtocol.resumeProducing, h1, h2]

theorem connectionLost_of_io (st : ConnSt) (f : Failure)
    (h : st.state = some Phase.reading ∨ st.state = some Phase.writing) :
    GreenletProtocol.connectionLost st f
      = ({ st with disconnected := some f }, true) := by
  simp only [GreenletProtocol.connectionLost]
  rw [if_pos (by simpa using h)]

theorem connectionLost_of_idle (st : ConnSt) (f : Failure)
    (h : ¬ (st.state = some Phase.reading ∨ st.state = some Phase.writing)) :
    GreenletProtocol.connectionLost st f
      = ({ st with disconnected := some f }, false) := by
  simp only [GreenletProtocol.connectionLost]
  rw [if_neg (by simpa using h)]

/-! ## The machine invariant -/

theorem MInv_init : MInv init := by
  simp [MInv, init, initConn]

theorem state_none_of_noIO (m : M) (h : MInv m)
    (hd : m.conn.disconnected = none) (hr : m.susp ≠ Susp.inRead)
    (hw : ∀ d, m.susp ≠ Susp.inWrite d) : m.conn.state = none := by
  obtain ⟨-, -, h3, -⟩ := h
  rcases hs : m.conn.state with _ | p
  · rfl
  · cases p with
    | reading => exact absurd ((h3 _ hd hs).1 rfl) hr
    | writing =>
      obtain ⟨d, hdw⟩ := (h3 _ hd hs).2 rfl
      exact absurd hdw (hw d)

theorem MInv_step (m : M) (ev : Ev) (h : MInv m) : MInv (Mstep m ev) := by
  obtain ⟨h1, h2, h3, h4⟩ := h
  cases ev with
  | callRead =>
    by_cases hr : m.susp = Susp.running
    · rcases hd : m.conn.disconnected with _ | f
      · by_cases hb : m.conn.buffer = ""
        · have hnone : m.conn.state = none :=
            state_none_of_noIO m ⟨h1, h2, h3, h4⟩ hd
              (by simp [hr]) (by simp [hr])
          simp [Mstep, hr, read_of_empty m.conn hd hb, MInv, hb]
        · have hnone : m.conn.state = none :=
            state_none_of_noIO m ⟨h1, h2, h3, h4⟩ hd
              (by simp [hr]) (by simp [hr])
          simp [Mstep, hr, read_of_buffered m.conn hd hb, MInv, hr, hnone]
      · simp only [Mstep]
        rw [if_pos hr, read_of_disconnected m.conn f hd]
        exact ⟨h1, h2, h3, h4⟩
    · simpa [Mstep, hr] using ⟨h1, h2, h3, h4⟩
  | callWrite data =>
    by_cases hr : m.susp = Susp.running
    · rcases hd : m.conn.disconnected with _ | f
      · have hnone : m.conn.state = none :=
          state_none_of_noIO m ⟨h1, h2, h3, h4⟩ hd
            (by simp [hr]) (by simp [hr])
        by_cases hp : m.conn.paused
        · simp [Mstep, hr, write_of_paused m.conn data hd hp, MInv, hp]
        · simp [Mstep, hr,
            write_of_unpaused m.conn data hd (by simpa using hp), MInv, hr,
            hnone, h4]
      · simp only [Mstep]
        rw [if_pos hr, write_of_disconnected m.conn data f hd]
        exact ⟨h1, h2, h3, h4⟩
    · simpa [Mstep, hr] using ⟨h1, h2, h3, h4⟩
  | callClose =>
    by_cases hr : m.susp = Susp.running
    · refine ⟨?_, ?_, ?_, ?_⟩ <;>
        simp only [Mstep, hr, if_true, GreenletTransport.close]
      · intro hs; simp at hs
      · intro d hdw; simp at hdw
      · intro p hdisc hstate
        have hnone : m.conn.state = none :=
          state_none_of_noIO m ⟨h1, h2, h3, h4⟩ hdisc
            (by simp [hr]) (by simp [hr])
        rw [hnone] at hstate; cases hstate
      · intro hs; exact h4 hs
    · simpa [Mstep, hr] using ⟨h1, h2, h3, h4⟩
  | callWait =>
    by_cases hr : m.susp = Susp.running
    · refine ⟨?_, ?_, ?_, ?_⟩ <;> simp only [Mstep, hr, if_true]
      · intro hs; simp at hs
      · intro d hdw; simp at hdw
      · intro p hdisc hstate
        have hnone : m.conn.state = none :=
          state_none_of_noIO m ⟨h1, h2, h3, h4⟩ hdisc
            (by simp [hr]) (by simp [hr])
        rw [hnone] at hstate; cases hstate
      · intro hs; exact h4 hs
    · simpa [Mstep, hr] using ⟨h1, h2, h3, h4⟩
  | workerDone =>
    by_cases hr : m.susp = Susp.running
    · refine ⟨?_, ?_, ?_, ?_⟩ <;> simp only [Mstep, hr, if_true]
      · intro hs; simp at hs
      · intro d hdw; simp at hdw
      · intro p hdisc hstate
        have hnone : m.conn.state = none :=
          state_none_of_noIO m ⟨h1, h2, h3, h4⟩ hdisc
            (by simp [hr]) (by simp [hr])
        rw [hnone] at hstate; cases hstate
      · intro hs; exact h4 hs
    · simpa [Mstep, hr] using ⟨h1, h2, h3, h4⟩
  | timerFire =>
    by_cases hw : m.susp = Susp.inWait
    · refine ⟨?_, ?_, ?_, ?_⟩ <;> simp only [Mstep, hw, if_true]
      · intro hs; simp at hs
      · intro d hdw; simp at hdw
      · intro p hdisc hstate
        have hnone : m.conn.state = none :=
          state_none_of_noIO m ⟨h1, h2, h3, h4⟩ hdisc
            (by simp [hw]) (by simp [hw])
        rw [hnone] at hstate; cases hstate
      · intro hs; exact h4 hs
    · simpa [Mstep, hw] using ⟨h1, h2, h3, h4⟩
  | deliver data =>
    by_cases hg : m.conn.disconnected = none ∧ m.susp ≠ Susp.running
    · obtain ⟨hd, hnr⟩ := hg
      by_cases hsr : m.conn.state = some Phase.reading
      · simp [Mstep, hd, hnr, dataReceived_of_reading m.conn data hsr, MInv]
      · refine ⟨?_, ?_, ?_, ?_⟩ <;>
          simp only [Mstep, hd, hnr, ne_eq, not_false_eq_true, and_self,
            if_true, dataReceived_of_notReading m.conn data hsr]
        · intro hs; exact absurd (h1 hs) hsr
        · intro d hdw; exact h2 d hdw
        · intro p hdisc hstate; exact h3 p hd hstate
        · intro hs; exact absurd hs hsr
    · simpa [Mstep, hg] using ⟨h1, h2, h3, h4⟩
  | pause =>
    by_cases hd : m.conn.disconnected = none
    · refine ⟨?_, ?_, ?_, ?_⟩ <;>
        simp only [Mstep, hd, if_true, GreenletProtocol.pauseProducing]
      · intro hs; exact h1 hs
      · intro d hdw; exact ⟨(h2 d hdw).1, by trivial⟩
      · intro p hdisc hstate; exact h3 p hd hstate
      · intro hs; exact h4 hs
    · simpa [Mstep, hd] using ⟨h1, h2, h3, h4⟩
  | resume =>
    by_cases hd : m.conn.disconnected = none
    · rcases hs : m.susp with _ | _ | d | _ | _
      · simpa [Mstep, hd, hs] using ⟨h1, h2, h3, h4⟩
      · simpa [Mstep, hd, hs] using ⟨h1, h2, h3, h4⟩
      · obtain ⟨hw, hp⟩ := h2 d hs
        simp [Mstep, hd, hs, resumeProducing_of_writing m.conn d hw hp, MInv]
      · simpa [Mstep, hd, hs] using ⟨h1, h2, h3, h4⟩
      · simpa [Mstep, hd, hs] using ⟨h1, h2, h3, h4⟩
    · simpa [Mstep, hd] using ⟨h1, h2, h3, h4⟩
  | connLost f =>
    by_cases hg : m.conn.disconnected = none ∧ m.susp ≠ Susp.running
    · obtain ⟨hd, hnr⟩ := hg
      by_cases hio : m.conn.state = some Phase.reading ∨
          m.conn.state = some Phase.writing
      · simp [Mstep, hd, hnr, connectionLost_of_io m.conn f hio, MInv]
        exact h4
      · refine ⟨?_, ?_, ?_, ?_⟩ <;>
          simp only [Mstep, hd, hnr, ne_eq, not_false_eq_true, and_self,
            if_true, connectionLost_of_idle m.conn f hio]
        · intro hs; exact absurd (h1 hs) (fun hh => hio (Or.inl hh))
        · intro d hdw; exact absurd (h2 d hdw).1 (fun hh => hio (Or.inr hh))
        · intro p hdisc hstate; cases hdisc
        · intro hs; exact h4 hs
    · simpa [Mstep, hg] using ⟨h1, h2, h3, h4⟩

theorem MInv_run (evs : List Ev) (m : M) (h : MInv m) : MInv (run m evs) := by
  induction evs generalizing m with
  | nil => exact h
  | cons ev evs ih => exact ih (Mstep m ev) (MInv_step m ev h)

theorem MInv_reach (evs : List Ev) : MInv (run init evs) :=
  MInv_run evs init MInv_init

/-! ## Conservation of the byte stream -/

theorem concatAll_append (l : List String) (s : String) :
    concatAll (l ++ [s]) = concatAll l ++ s := by
  induction l with
  | nil => simp [concatAll]
  | cons a l ih => simp [concatAll, ih, String.append_assoc]

theorem tally_step (m : M) (ev : Ev)
    (h : concatAll m.reads ++ m.conn.buffer = concatAll m.delivered) :
    concatAll (Mstep m ev).reads ++ (Mstep m ev).conn.buffer
      = concatAll (Mstep m ev).delivered := by
  cases ev with
  | callRead =>
    by_cases hr : m.susp = Susp.running
    · rcases hd : m.conn.disconnected with _ | f
      · by_cases hb : m.conn.buffer = ""
        · simpa [Mstep, hr, read_of_empty m.conn hd hb] using h
        · simpa [Mstep, hr, read_of_buffered m.conn hd hb,
            concatAll_append] using h
      · simpa [Mstep, hr, read_of_disconnected m.conn f hd] using h
    · simpa [Mstep, hr] using h
  | callWrite data =>
    by_cases hr : m.susp = Susp.running
    · rcases hd : m.conn.disconnected with _ | f
      · by_cases hp : m.conn.paused
        · simpa [Mstep, hr, write_of_paused m.conn data hd hp] using h
        · simpa [Mstep, hr,
            write_of_unpaused m.conn data hd (by simpa using hp)] using h
      · simpa [Mstep, hr, write_of_disconnected m.conn data f hd] using h
    · simpa [Mstep, hr] using h
  | callClose =>
    by_cases hr : m.susp = Susp.running
    · simpa [Mstep, hr, GreenletTransport.close] using h
    · simpa [Mstep, hr] using h
  | callWait =>
    by_cases hr : m.susp = Susp.running
    · simpa [Mstep, hr] using h
    · simpa [Mstep, hr] using h
  | workerDone =>
    by_cases hr : m.susp = Susp.running
    · simpa [Mstep, hr] using h
    · simpa [Mstep, hr] using h
  | timerFire =>
    by_cases hw : m.susp = Susp.inWait
    · simpa [Mstep, hw] using h
    · simpa [Mstep, hw] using h
  | deliver data =>
    by_cases hg : m.conn.disconnected = none ∧ m.susp ≠ Susp.running
    · obtain ⟨hd, hnr⟩ := hg
      by_cases hsr : m.conn.state = some Phase.reading
      · simp only [Mstep, hd, hnr, ne_eq, not_false_eq_true, and_self,
          if_true, dataReceived_of_reading m.conn data hsr, concatAll_append]
        simp only [String.append_empty]
        rw [← String.append_assoc, h]
      · simp only [Mstep, hd, hnr, ne_eq, not_false_eq_true, and_self,
          if_true, dataReceived_of_notReading m.conn data hsr,
          concatAll_append]
        rw [← String.append_assoc, h]
    · simpa [Mstep, hg] using h
  | pause =>
    by_cases hd : m.conn.disconnected = none
    · simpa [Mstep, hd, GreenletProtocol.pauseProducing] using h
    · simpa [Mstep, hd] using h
  | resume =>
    by_cases hd : m.conn.disconnected = none
    · rcases hs : m.susp with _ | _ | d | _ | _
      · simpa [Mstep, hd, hs] using h
      · simpa [Mstep, hd, hs] using h
      · by_cases hcond : m.conn.state = some Phase.writing ∧
            m.conn.paused = true
        · simpa [Mstep, hd, hs,
            resumeProducing_of_writing m.conn d hcond.1 hcond.2] using h
        · have hnone : GreenletProtocol.resumeProducing m.conn d = none := by
            rw [GreenletProtocol.resumeProducing, if_neg hcond]
          simpa [Mstep, hd, hs, hnone] using h
      · simpa [Mstep, hd, hs] using h
      · simpa [Mstep, hd, hs] using h
    · simpa [Mstep, hd] using h
  | connLost f =>
    by_cases hg : m.conn.disconnected = none ∧ m.susp ≠ Susp.running
    · obtain ⟨hd, hnr⟩ := hg
      by_cases hio : m.conn.state = some Phase.reading ∨
          m.conn.state = some Phase.writing
      · simpa [Mstep, hd, hnr, connectionLost_of_io m.conn f hio] using h
      · simpa [Mstep, hd, hnr, connectionLost_of_idle m.conn f hio] using h
    · simpa [Mstep, hg] using h

theorem tally_run (evs : List Ev) (m : M)
    (h : concatAll m.reads ++ m.conn.buffer = concatAll m.delivered) :
    concatAll (run m evs).reads ++ (run m evs).conn.buffer
      = concatAll (run m evs).delivered := by
  induction evs generalizing m with
  | nil => exact h
  | cons ev evs ih => exact ih (Mstep m ev) (tally_step m ev h)

theorem write_suspension_persists (m : M) (hInv : MInv m) (d : String)
    (ev : Ev) (hsusp : m.susp = Susp.inWrite d)
    (hne1 : ∀ f, ev ≠ Ev.connLost f) (hne2 : ev ≠ Ev.resume) :
    (Mstep m ev).susp = Susp.inWrite d ∧
    (Mstep m ev).conn.written = m.conn.written := by
  obtain ⟨-, h2, -, -⟩ := hInv
  obtain ⟨hw, hp⟩ := h2 d hsusp
  cases ev with
  | callRead => simp [Mstep, hsusp]
  | callWrite x => simp [Mstep, hsusp]
  | callClose => simp [Mstep, hsusp]
  | callWait => simp [Mstep, hsusp]
  | workerDone => simp [Mstep, hsusp]
  | timerFire => simp [Mstep, hsusp]
  | deliver x =>
    by_cases hd : m.conn.disconnected = none
    · have hsr : ¬ m.conn.state = some Phase.reading := by simp [hw]
      simp [Mstep, hd, hsusp, dataReceived_of_notReading m.conn x hsr]
    · simp [Mstep, hd, hsusp]
  | pause =>
    by_cases hd : m.conn.disconnected = none
    · simp [Mstep, hd, hsusp, GreenletProtocol.pauseProducing]
    · simp [Mstep, hd, hsusp]
  | resume => exact absurd rfl hne2
  | connLost f => exact absurd rfl (hne1 f)

theorem write_resume_completes (m : M) (hInv : MInv m) (d : String)
    (hsusp : m.susp = Susp.inWrite d) (hd : m.conn.disconnected = none) :
    Mstep m Ev.resume
      = { m with
            conn := { m.conn with
                        paused := false
                        state := none
                        written := m.conn.written ++ [d] }
            susp := Susp.running } := by
  obtain ⟨-, h2, -, -⟩ := hInv
  obtain ⟨hw, hp⟩ := h2 d hsusp
  simp [Mstep, hd, hsusp, resumeProducing_of_writing m.conn d hw hp]

/-! ## The claims -/

/-- C1: for every sequence of machine events, the byte chunks returned by
completed `read` calls followed by the still-pending inbound buffer are,
concatenated, exactly the delivered byte chunks concatenated in order —
no byte is lost, reordered or duplicated; moreover when the phase is
READING a `dataReceived` resumes the worker with exactly the newly
arrived bytes, and otherwise the bytes are appended to the pending
inbound buffer for a future `read` to drain. -/
theorem read_stream_conservation (evs : List Ev) (data : String) :
    (concatAll (run init evs).reads ++ (run init evs).conn.buffer
        = concatAll (run init evs).delivered) ∧
    ((run init evs).conn.state = some Phase.reading →
      (run init evs).conn.disconnected = none →
      (run init evs).susp ≠ Susp.running →
      (Mstep (run init evs) (Ev.deliver data)).reads
          = (run init evs).reads ++ [data] ∧
      (Mstep (run init evs) (Ev.deliver data)).conn.buffer = "") ∧
    (¬ (run init evs).conn.state = some Phase.reading →
      (run init evs).conn.disconnected = none →
      (run init evs).susp ≠ Susp.running →
      (Mstep (run init evs) (Ev.deliver data)).conn.buffer
          = (run init evs).conn.buffer ++ data ∧
      (Mstep (run init evs) (Ev.deliver data)).reads
          = (run init evs).reads) := by
  refine ⟨tally_run evs init (by simp [init, initConn, concatAll]), ?_, ?_⟩
  · intro hsr hd hnr
    have hbuf : (run init evs).conn.buffer = "" :=
      (MInv_reach evs).2.2.2 hsr
    constructor
    · simp [Mstep, hd, hnr, dataReceived_of_reading _ data hsr, hbuf]
    · simp [Mstep, hd, hnr, dataReceived_of_reading _ data hsr]
  · intro hsr hd hnr
    constructor
    · simp [Mstep, hd, hnr, dataReceived_of_notReading _ data hsr]
    · simp [Mstep, hd, hnr, dataReceived_of_notReading _ data hsr]

/-- C1 witness: concrete instances — a delivery while suspended in `read`
returns exactly the new bytes, and a delivery while suspended in `wait`
is buffered with no read result. -/
theorem read_stream_conservation_witness :
    (Mstep (run init [Ev.callRead]) (Ev.deliver "ab")).reads
        = (run init [Ev.callRead]).reads ++ ["ab"] ∧
    (Mstep (run init [Ev.callRead]) (Ev.deliver "ab")).conn.buffer = "" ∧
    (Mstep (run init [Ev.callWait]) (Ev.deliver "xy")).conn.buffer
        = (run init [Ev.callWait]).conn.buffer ++ "xy" ∧
    (Mstep (run init [Ev.callWait]) (Ev.deliver "xy")).reads
        = (run init [Ev.callWait]).reads := by
  obtain ⟨hA1, hA2⟩ := (read_stream_conservation [Ev.callRead] "ab").2.1
    (by decide) (by decide) (by decide)
  obtain ⟨hB1, hB2⟩ := (read_stream_conservation [Ev.callWait] "xy").2.2
    (by decide) (by decide) (by decide)
  exact ⟨hA1, hA2, hB1, hB2⟩

/-- C2: `read` is a three-way case split: with a recorded terminal error
it raises that error immediately without suspending; otherwise with a
non-empty pending inbound buffer it atomically takes and clears the whole
buffer and returns it without suspending; otherwise it sets the phase to
READING and suspends — a subsequent delivery resumes it with the
delivered chunk and resets the phase to idle, while a disconnection
injects the error into it. -/
theorem read_three_way_split (st : ConnSt) (f : Failure) (data : String) :
    (st.disconnected = some f →
      GreenletTransport.read st = (ReadStep.raises f, st)) ∧
    (st.disconnected = none → st.buffer ≠ "" →
      GreenletTransport.read st
          = (ReadStep.returns st.buffer, { st with buffer := "" })) ∧
    (st.disconnected = none → st.buffer = "" →
      GreenletTransport.read st
          = (ReadStep.suspends, { st with state := some Phase.reading }) ∧
      GreenletProtocol.dataReceived { st with state := some Phase.reading } data
          = ({ st with state := none, buffer := "" }, some data) ∧
      (GreenletProtocol.connectionLost
          { st with state := some Phase.reading } f).2 = true) := by
  refine ⟨fun h => read_of_disconnected st f h,
          fun h1 h2 => read_of_buffered st h1 h2,
          fun h1 h2 => ⟨read_of_empty st h1 h2, ?_, ?_⟩⟩
  · rw [dataReceived_of_reading { st with state := some Phase.reading } data
      (by simp)]
    simp [h2]
  · simp [connectionLost_of_io { st with state := some Phase.reading } f
      (Or.inl rfl)]

/-- C2 witness: the three cases and the two resumption outcomes at
concrete connection states. -/
theorem read_three_way_split_witness :
    GreenletTransport.read ⟨"", none, some Failure.connectionDone, false, [], 0⟩
        = (ReadStep.raises Failure.connectionDone,
           ⟨"", none, some Failure.connectionDone, false, [], 0⟩) ∧
    GreenletTransport.read ⟨"ab", none, none, false, [], 0⟩
        = (ReadStep.returns "ab", ⟨"", none, none, false, [], 0⟩) ∧
    GreenletTransport.read ⟨"", none, none, false, [], 0⟩
        = (ReadStep.suspends, ⟨"", some Phase.reading, none, false, [], 0⟩) ∧
    GreenletProtocol.dataReceived ⟨"", some Phase.reading, none, false, [], 0⟩ "xy"
        = (⟨"", none, none, false, [], 0⟩, some "xy") ∧
    (GreenletProtocol.connectionLost
        ⟨"", some Phase.reading, none, false, [], 0⟩ Failure.connectionLost).2
      = true := by
  have hA := read_three_way_split
    ⟨"", none, some Failure.connectionDone, false, [], 0⟩
    Failure.connectionDone "xy"
  have hB := read_three_way_split ⟨"ab", none, none, false, [], 0⟩
    Failure.connectionLost "xy"
  have hC := read_three_way_split ⟨"", none, none, false, [], 0⟩
    Failure.connectionLost "xy"
  obtain ⟨hC1, hC2, hC3⟩ := hC.2.2 rfl rfl
  exact ⟨hA.1 rfl, hB.2.1 rfl (by decide), hC1, hC2, hC3⟩

/-- C3: a `write` with no terminal error recorded forwards its data to
the underlying transport immediately (never suspending) when the
backpressure flag is clear; when the flag is set it suspends, the
suspension persists under every event other than `resumeProducing` (and
disconnection) with nothing written, and the next `resumeProducing`
resumes it and forwards the data exactly once. -/
theorem write_backpressure_spec (st : ConnSt) (data : String)
    (evs : List Ev) (d : String) (ev : Ev) :
    (st.disconnected = none → st.paused = false →
      GreenletTransport.write st data
          = (WriteStep.writes, { st with written := st.written ++ [data] })) ∧
    (st.disconnected = none → st.paused = true →
      GreenletTransport.write st data
          = (WriteStep.suspends, { st with state := some Phase.writing })) ∧
    ((run init evs).susp = Susp.inWrite d → (∀ f, ev ≠ Ev.connLost f) →
      ev ≠ Ev.resume →
      (Mstep (run init evs) ev).susp = Susp.inWrite d ∧
      (Mstep (run init evs) ev).conn.written
          = (run init evs).conn.written) ∧
    ((run init evs).susp = Susp.inWrite d →
      (run init evs).conn.disconnected = none →
      (Mstep (run init evs) Ev.resume).susp = Susp.running ∧
      (Mstep (run init evs) Ev.resume).conn.written
          = (run init evs).conn.written ++ [d] ∧
      (Mstep (run init evs) Ev.resume).conn.paused = false ∧
      (Mstep (run init evs) Ev.resume).conn.state = none) := by
  refine ⟨fun h1 h2 => write_of_unpaused st data h1 h2,
          fun h1 h2 => write_of_paused st data h1 h2,
          fun hs hne1 hne2 =>
            write_suspension_persists (run init evs) (MInv_reach evs) d ev
              hs hne1 hne2,
          fun hs hd => ?_⟩
  rw [write_resume_completes (run init evs) (MInv_reach evs) d hs hd]
  simp

/-- C3 witness: concrete instances — an unpaused write forwards at once;
a paused write suspends, survives a delivery unchanged, and is completed
by `resumeProducing` forwarding its data. -/
theorem write_backpressure_spec_witness :
    GreenletTransport.write initConn "hi"
        = (WriteStep.writes, { initConn with written := ["hi"] }) ∧
    GreenletTransport.write { initConn with paused := true } "of"
        = (WriteStep.suspends,
           { initConn with paused := true, state := some Phase.writing }) ∧
    (Mstep (run init [Ev.pause, Ev.callWrite "of"]) (Ev.deliver "zz")).susp
        = Susp.inWrite "of" ∧
    (Mstep (run init [Ev.pause, Ev.callWrite "of"]) (Ev.deliver "zz")).conn.written
        = (run init [Ev.pause, Ev.callWrite "of"]).conn.written ∧
    (Mstep (run init [Ev.pause, Ev.callWrite "of"]) Ev.resume).susp
        = Susp.running ∧
    (Mstep (run init [Ev.pause, Ev.callWrite "of"]) Ev.resume).conn.written
        = (run init [Ev.pause, Ev.callWrite "of"]).conn.written ++ ["of"] := by
  have hA := write_backpressure_spec initConn "hi"
    [Ev.pause, Ev.callWrite "of"] "of" (Ev.deliver "zz")
  have hB := write_backpressure_spec { initConn with paused := true } "of"
    [Ev.pause, Ev.callWrite "of"] "of" (Ev.deliver "zz")
  obtain ⟨hP1, hP2⟩ := hA.2.2.1 (by decide)
    (by intro f; cases f <;> decide) (by decide)
  obtain ⟨hR1, hR2, -, -⟩ := hA.2.2.2 (by decide) (by decide)
  exact ⟨hA.1 rfl rfl, hB.2.1 rfl rfl, hP1, hP2, hR1, hR2⟩

/-- C4: `connectionLost` always records the terminal error on the
transport, and throws it into the worker greenlet exactly when the phase
is READING or WRITING — in which case the blocked call raises it and the
worker resumes; a worker suspended for a non-I/O reason (inside `wait`,
so phase idle) gets no injection, the error is merely recorded, and the
next `read` or `write` call raises it. -/
theorem connectionLost_records_and_injects (st : ConnSt) (f : Failure)
    (evs : List Ev) (data : String) :
    (GreenletProtocol.connectionLost st f).1.disconnected = some f ∧
    ((GreenletProtocol.connectionLost st f).2 = true ↔
      st.state = some Phase.reading ∨ st.state = some Phase.writing) ∧
    ((run init evs).conn.disconnected = none →
      ((run init evs).susp = Susp.inRead ∨
          (∃ d, (run init evs).susp = Susp.inWrite d) →
        (Mstep (run init evs) (Ev.connLost f)).susp = Susp.running ∧
        (Mstep (run init evs) (Ev.connLost f)).conn.disconnected = some f) ∧
      ((run init evs).susp = Susp.inWait →
        (GreenletProtocol.connectionLost (run init evs).conn f).2 = false ∧
        (Mstep (run init evs) (Ev.connLost f)).susp = Susp.inWait ∧
        (Mstep (run init evs) (Ev.connLost f)).conn.disconnected = some f ∧
        (GreenletTransport.read
            (Mstep (run init evs) (Ev.connLost f)).conn).1
          = ReadStep.raises f ∧
        (GreenletTransport.write
            (Mstep (run init evs) (Ev.connLost f)).conn data).1
          = WriteStep.raises f)) := by
  refine ⟨?_, ?_, ?_⟩
  · by_cases hio : st.state = some Phase.reading ∨ st.state = some Phase.writing
    · simp [connectionLost_of_io st f hio]
    · simp [connectionLost_of_idle st f hio]
  · by_cases hio : st.state = some Phase.reading ∨ st.state = some Phase.writing
    · simp [connectionLost_of_io st f hio, hio]
    · simp [connectionLost_of_idle st f hio, hio]
  · intro hd
    constructor
    · intro hio
      have h := MInv_reach evs
      have hstio : (run init evs).conn.state = some Phase.reading ∨
          (run init evs).conn.state = some Phase.writing := by
        rcases hio with hr | ⟨d, hw⟩
        · exact Or.inl (h.1 hr)
        · exact Or.inr (h.2.1 d hw).1
      have hnr : (run init evs).susp ≠ Susp.running := by
        rcases hio with hr | ⟨d, hw⟩
        · simp [hr]
        · simp [hw]
      constructor
      · simp [Mstep, hd, hnr, connectionLost_of_io _ f hstio]
      · simp [Mstep, hd, hnr, connectionLost_of_io _ f hstio]
    · intro hwait
      have h := MInv_reach evs
      have hnone : (run init evs).conn.state = none :=
        state_none_of_noIO _ h hd (by simp [hwait]) (by simp [hwait])
      have hnio : ¬ ((run init evs).conn.state = some Phase.reading ∨
          (run init evs).conn.state = some Phase.writing) := by
        simp [hnone]
      have hnr : (run init evs).susp ≠ Susp.running := by simp [hwait]
      have hconn : (Mstep (run init evs) (Ev.connLost f)).conn.disconnected
          = some f := by
        simp [Mstep, hd, hnr, connectionLost_of_idle _ f hnio]
      refine ⟨?_, ?_, hconn, ?_, ?_⟩
      · simp [connectionLost_of_idle _ f hnio]
      · simp [Mstep, hd, hnr, connectionLost_of_idle _ f hnio, hwait]
      · simp [read_of_disconnected _ f hconn]
      · simp [write_of_disconnected _ data f hconn]

/-- C4 witness: concrete instances — disconnection while suspended in
`read` injects and resumes the worker; disconnection while suspended in
`wait` injects nothing and the next `read` raises the recorded error. -/
theorem connectionLost_records_and_injects_witness :
    (GreenletProtocol.connectionLost initConn Failure.connectionDone).1.disconnected
        = some Failure.connectionDone ∧
    (Mstep (run init [Ev.callRead]) (Ev.connLost Failure.connectionDone)).susp
        = Susp.running ∧
    (Mstep (run init [Ev.callRead])
        (Ev.connLost Failure.connectionDone)).conn.disconnected
        = some Failure.connectionDone ∧
    (GreenletProtocol.connectionLost (run init [Ev.callWait]).conn
        Failure.connectionLost).2 = false ∧
    (GreenletTransport.read
        (Mstep (run init [Ev.callWait])
          (Ev.connLost Failure.connectionLost)).conn).1
      = ReadStep.raises Failure.connectionLost := by
  have hA := connectionLost_records_and_injects initConn
    Failure.connectionDone [Ev.callRead] "x"
  have hB := connectionLost_records_and_injects initConn
    Failure.connectionLost [Ev.callWait] "x"
  obtain ⟨hA1, hA2⟩ := (hA.2.2 (by decide)).1 (Or.inl (by decide))
  obtain ⟨hB1, -, -, hB4, -⟩ := (hB.2.2 (by decide)).2 (by decide)
  exact ⟨hA.1, hA1, hA2, hB1, hB4⟩

/-- C5 counterexample: the claim "phase is READING or WRITING only while
the worker context is suspended inside the corresponding call, and idle
at every other moment, including after a suspended call terminates by a
raised exception" is false on the code: after `connectionLost` injects
the error into a `read`-suspended worker, the interrupted call skips its
`self._state = None` line, so the worker is resumed (no longer suspended
in `read`) while the phase is still READING. -/
theorem phase_invariant_counterexample :
    (run init [Ev.callRead, Ev.connLost Failure.connectionDone]).conn.state
        = some Phase.reading ∧
    (run init [Ev.callRead, Ev.connLost Failure.connectionDone]).susp
        = Susp.running := by
  decide

/-- C5 (amended): in every reachable state, a worker suspended inside
`read`/`write` has phase READING/WRITING, and while no terminal error is
recorded the phase is READING or WRITING exactly when the worker is
suspended inside the corresponding call (idle otherwise); after an
error-injecting disconnection the phase field may keep its stale
READING/WRITING value even though the call has terminated. -/
theorem phase_invariant_amended (evs : List Ev) :
    ((run init evs).susp = Susp.inRead →
      (run init evs).conn.state = some Phase.reading) ∧
    (∀ d, (run init evs).susp = Susp.inWrite d →
      (run init evs).conn.state = some Phase.writing) ∧
    ((run init evs).conn.disconnected = none →
      ((run init evs).conn.state = some Phase.reading ↔
        (run init evs).susp = Susp.inRead) ∧
      ((run init evs).conn.state = some Phase.writing ↔
        ∃ d, (run init evs).susp = Susp.inWrite d)) := by
  obtain ⟨h1, h2, h3, h4⟩ := MInv_reach evs
  refine ⟨h1, fun d hd => (h2 d hd).1, fun hd => ⟨⟨?_, h1⟩, ⟨?_, ?_⟩⟩⟩
  · intro hs; exact (h3 Phase.reading hd hs).1 rfl
  · intro hs; exact (h3 Phase.writing hd hs).2 rfl
  · rintro ⟨d, hdw⟩; exact (h2 d hdw).1

/-- C5 witness: a concrete reachable state with the worker suspended in
`read` where the amended equivalence holds. -/
theorem phase_invariant_amended_witness :
    (run init [Ev.callRead]).conn.state = some Phase.reading ∧
    ((run init [Ev.callRead]).conn.state = some Phase.reading ↔
      (run init [Ev.callRead]).susp = Susp.inRead) := by
  refine ⟨by decide, ?_⟩
  exact ((phase_invariant_amended [Ev.callRead]).2.2 (by decide)).1

/-- C6: `blockOn` on a Deferred that already holds an outcome at
registration time returns the success value or raises the failure
synchronously, with no context switch (the `switched` observer stays
`false`); only an unfired Deferred makes it switch to `MAIN`. -/
theorem blockOn_resolved_synchronous (α : Type) (a : α) (f : Failure)
    (r : Outcome α) :
    (blockOn (some r)).switched = false ∧
    blockOn (some (Outcome.success a)) = BlockOnResult.returns a ∧
    blockOn (some (Outcome.failure f : Outcome α)) = BlockOnResult.raises f ∧
    blockOn (none : Option (Outcome α)) = BlockOnResult.suspends ∧
    (blockOn (none : Option (Outcome α))).switched = true := by
  refine ⟨?_, rfl, rfl, rfl, rfl⟩
  cases r <;> rfl

/-- C7 counterexample: the claim that `blockOn` called from the driver
(reactor) greenlet fails fast with a misuse error is false on the code —
`blockOn` (defer.py lines 19-45) checks nothing about the calling
greenlet and simply proceeds (here, to its switch) instead of raising. -/
theorem blockOn_driver_no_failfast_counterexample :
    blockOnEntry Caller.driver (none : Option (Outcome Unit))
      = Except.ok BlockOnResult.suspends := rfl

/-- C7 (amended): `gConnectTCP` called from the driver greenlet fails
fast with its `assert current is not MAIN` misuse error (and from a
worker greenlet proceeds to block on the connection Deferred), but
`blockOn` performs no such check and proceeds identically from the
driver greenlet. -/
theorem gConnectTCP_driver_rejected (α : Type) (d : Option (Outcome α)) :
    gConnectTCP Caller.driver d
        = Except.error Misuse.calledFromReactorGreenlet ∧
    gConnectTCP Caller.worker d = Except.ok (blockOn d) ∧
    blockOnEntry Caller.driver d = Except.ok (blockOn d) :=
  ⟨rfl, rfl, rfl⟩

theorem resumeToCompletion_eq (k : GComp β) (d : Option (Outcome β)) :
    resumeToCompletion k d = some (outcomeOf (finalResult k)) := by
  induction k with
  | done r => rfl
  | suspends k ih => simpa [resumeToCompletion, finalResult] using ih

/-- C8: a `deferredGreenlet`-wrapped call always resolves its returned
Deferred with the wrapped function's eventual outcome — the return value
as a success (`callback`), a raised error as a failure (`errback`); and
when the wrapped function finishes without ever suspending, the Deferred
already holds that outcome at the moment the wrapper call returns it. -/
theorem deferredGreenlet_resolution (β : Type) (g : GComp β)
    (r : Except Failure β) (b : β) (f : Failure) :
    eventualDeferred g = some (outcomeOf (finalResult g)) ∧
    outcomeOf (Except.ok b : Except Failure β) = Outcome.success b ∧
    outcomeOf (Except.error f : Except Failure β) = Outcome.failure f ∧
    (deferredGreenlet (GComp.done r)).1 = some (outcomeOf r) ∧
    (deferredGreenlet (GComp.done r)).2 = none := by
  refine ⟨?_, rfl, rfl, rfl, rfl⟩
  cases g with
  | done r => rfl
  | suspends k =>
    simpa [eventualDeferred, deferredGreenlet, finalResult] using
      resumeToCompletion_eq k none

/-- C9: `readLine` dequeues complete delimiter-stripped records in FIFO
order, retaining partial trailing fragments across `read()` deliveries:
with the default CRLF delimiter, delivering `"foo\r\nbar\r\nbaz\r\n"`
then `"quux\r\n"` yields the `readLine` results `"foo"`, `"bar"`,
`"baz"`, `"quux"` in order; and `writeLine "foo"` then `writeLine "bar"`
writes exactly the byte sequence `"foo\r\nbar\r\n"` to the transport. -/
theorem lineBuffer_framing (lb : LineBuffer) (l : List Char)
    (rest : List (List Char)) (chunks : List (List Char)) :
    (lb.lines = l :: rest →
      lb.readLine chunks = some (l, { lb with lines := rest }, chunks)) ∧
    readLines 4 LineBuffer.make
        ["foo\r\nbar\r\nbaz\r\n".toList, "quux\r\n".toList]
        = ["foo".toList, "bar".toList, "baz".toList, "quux".toList] ∧
    concatChars (LineBuffer.writeLine LineBuffer.make
        (LineBuffer.writeLine LineBuffer.make [] "foo".toList) "bar".toList)
        = "foo\r\nbar\r\n".toList := by
  refine ⟨?_, by decide, by decide⟩
  intro h
  obtain ⟨delim, lines, buf⟩ := lb
  replace h : lines = l :: rest := h
  subst h
  simp [LineBuffer.readLine]

/-- C9 witness: the FIFO dequeue applied at a concrete buffer holding one
complete line. -/
theorem lineBuffer_framing_witness :
    LineBuffer.readLine ⟨"\r\n".toList, ["ab".toList], []⟩ []
        = some ("ab".toList, ⟨"\r\n".toList, [], []⟩, []) ∧
    readLines 4 LineBuffer.make
        ["foo\r\nbar\r\nbaz\r\n".toList, "quux\r\n".toList]
        = ["foo".toList, "bar".toList, "baz".toList, "quux".toList] := by
  have h := lineBuffer_framing ⟨"\r\n".toList, ["ab".toList], []⟩
    "ab".toList [] []
  exact ⟨h.1 rfl, h.2.1⟩

/-- C10: `close` never raises and never suspends — it is a total
function on the connection state with no raising or suspending outcome,
and a `callClose` leaves the worker running — even when a terminal error
is already recorded (it does not inspect `_disconnected`); it forwards
to the underlying transport's `loseConnection` unconditionally and
leaves the recorded error, phase, backpressure flag and pending inbound
buffer unchanged. -/
theorem close_forwards_unconditionally (st : ConnSt) (f : Failure) :
    (GreenletTransport.close st).loseConnectionCalls
        = st.loseConnectionCalls + 1 ∧
    (GreenletTransport.close st).disconnected = st.disconnected ∧
    (GreenletTransport.close st).state = st.state ∧
    (GreenletTransport.close st).paused = st.paused ∧
    (GreenletTransport.close st).buffer = st.buffer ∧
    (GreenletTransport.close st).written = st.written ∧
    (GreenletTransport.close
        { st with disconnected := some f }).loseConnectionCalls
        = st.loseConnectionCalls + 1 ∧
    (GreenletTransport.close
        { st with disconnected := some f }).disconnected = some f ∧
    Mstep { conn := st, susp := Susp.running, reads := [], delivered := [] }
        Ev.callClose
      = { conn := GreenletTransport.close st, susp := Susp.running,
          reads := [], delivered := [] } := by
  exact ⟨rfl, rfl, rfl, rfl, rfl, rfl, rfl, rfl, rfl⟩

end Corotwine
